import Mathlib

/-!
Verification of the AAR packaging scripts (`scripts/aar.py`, `scripts/jitpack.py`).

The scripts package already-built native shared libraries into an Android
Archive (a zip file).  We embed the relevant functions shallowly:

* the input directory tree is a list of immediate children of the library
  directory, each child being either a regular file or an ABI subdirectory
  containing regular files, in the order `Path.iterdir` yields them;
* the output archive is its list of entries (path plus data) together with
  flags recording that the output file was created and that the zip was
  properly closed;
* Python exceptions / `sys.exit` become `Except String`.
-/

/-- File content, as the sequence of its bytes. -/
abbrev Bytes := List Nat

/-- A regular file: its name and its content bytes. -/
structure SrcFile where
  name : String
  content : Bytes
deriving DecidableEq

/-- An immediate child of the library directory: either a regular file or an
ABI subdirectory containing regular files. -/
inductive Child where
  | file (f : SrcFile)
  | dir (name : String) (files : List SrcFile)
deriving DecidableEq

/-- The name of an immediate child, as `Path.name` reports it. -/
def childName : Child → String
  | .file f => f.name
  | .dir n _ => n

/-- The files of a child that is a directory (a regular file has none). -/
def childFiles : Child → List SrcFile
  | .file _ => []
  | .dir _ fs => fs

/-- A name fully matches the glob pattern `*.so` exactly when it ends in
`.so` (`fnmatch` translation of the pattern; `pathlib` globbing does not
special-case leading dots). -/
def matchesSo (s : String) : Bool :=
  match s.data.reverse with
  | 'o' :: 's' :: '.' :: _ => true
  | _ => false

/-- `abi_dir.glob("*.so")`: `Path.glob` on a non-directory path yields
nothing (its selector first checks `is_dir`); in a directory it yields the
children whose name matches the pattern. -/
def soLibs : Child → List SrcFile
  | .file _ => []
  | .dir _ files => files.filter (fun f => matchesSo f.name)

/-- One archive entry: its path inside the zip and its data.  The manifest is
written from a string (`writestr`), libraries from file bytes (`write`). -/
structure Entry where
  name : String
  data : String ⊕ Bytes
deriving DecidableEq

/-- The `AndroidManifest.xml` payload written by `generate_aar`: the
f-string after `textwrap.dedent` has removed the 16-space indentation that
is common to every line of the literal (the final whitespace-only line is
normalized away by `dedent`). -/
def manifestContent (group_id artifact_id : String) (min_sdk_version : Int) : String :=
  "<?xml version=\"1.0\" encoding=\"utf-8\"?>\n<manifest xmlns:android=\"http://schemas.android.com/apk/res/android\"\n    package=\"" ++ group_id ++ "." ++ artifact_id ++ "\" >\n    <uses-sdk android:minSdkVersion=\"" ++ toString min_sdk_version ++ "\" />\n</manifest>\n"

/-- The manifest entry, the first entry written to every archive. -/
def manifestEntry (group_id artifact_id : String) (min_sdk_version : Int) : Entry :=
  ⟨"AndroidManifest.xml", Sum.inl (manifestContent group_id artifact_id min_sdk_version)⟩

/-- The arcname `f"jni/\x7babi_dir.name\x7d/\x7blib.name\x7d"`. -/
def jniName (abi fileName : String) : String :=
  "jni/" ++ abi ++ "/" ++ fileName

/-- The archive entries contributed by one child of the library directory:
one entry per `*.so` match, byte-identical to the source file. -/
def jniEntries (c : Child) : List Entry :=
  (soLibs c).map (fun f => ⟨jniName (childName c) f.name, Sum.inr f.content⟩)

/-- The message of the `RuntimeError` raised when a child has no `*.so`
matches; `abi_dir` prints as the library directory path joined with the
child's name. -/
def noLibsMsg (libraryDirPath : String) (c : Child) : String :=
  "No libraries found matching " ++ libraryDirPath ++ "/" ++ childName c ++ "/*.so"

/-- The loop of `generate_aar`: walk the children of `library_dir` in
iteration order, appending each matching library to the archive, and raise
on the first child whose `*.so` match set is empty.  Returns the outcome
together with the entries present in the archive (on the raising path these
are the entries written before the raise). -/
def writeLibs (libraryDirPath : String) : List Child → List Entry → Except String Unit × List Entry
  | [], acc => (Except.ok (), acc)
  | c :: rest, acc =>
    if soLibs c = [] then (Except.error (noLibsMsg libraryDirPath c), acc)
    else writeLibs libraryDirPath rest (acc ++ jniEntries c)

/-- State of the file at `output_path` after the call returns or raises:
`ZipFile(output_path, mode="w")` creates (or truncates) the file, and the
`with` statement calls `close()` on both the normal and the raising exit,
which writes the zip central directory — so the file on disk is always a
well-formed, readable archive holding the entries written so far. -/
structure DiskState where
  created : Bool
  closed : Bool
  entries : List Entry
deriving DecidableEq

/-- `generate_aar(output_path, library_dir, group_id, artifact_id,
min_sdk_version)` from `scripts/aar.py`: open a fresh zip at `output_path`,
write the manifest entry, then the per-ABI library entries.
`libraryDirPath` is the textual path of `library_dir` (it appears in the
error message) and `children` its listing in iteration order; the returned
`DiskState` is the file left at `output_path`. -/
def generate_aar (libraryDirPath : String) (children : List Child)
    (group_id artifact_id : String) (min_sdk_version : Int) :
    Except String Unit × DiskState :=
  let r := writeLibs libraryDirPath children
    [manifestEntry group_id artifact_id min_sdk_version]
  (r.1, ⟨true, true, r.2⟩)

/-- All library entries of a successful run, child by child. -/
def allLibEntries : List Child → List Entry
  | [] => []
  | c :: cs => jniEntries c ++ allLibEntries cs

/-! ### Basic lemmas about the packaging loop -/

theorem str_ext {s t : String} (h : s.data = t.data) : s = t := by
  cases s; cases t; cases h; rfl

theorem writeLibs_snd (p : String) (ch : List Child) :
    ∀ acc, ∃ rest, (writeLibs p ch acc).2 = acc ++ rest := by
  induction ch with
  | nil => intro acc; exact ⟨[], by simp [writeLibs]⟩
  | cons c cs ih =>
    intro acc
    by_cases hc : soLibs c = []
    · exact ⟨[], by simp [writeLibs, hc]⟩
    · obtain ⟨rest, hrest⟩ := ih (acc ++ jniEntries c)
      exact ⟨jniEntries c ++ rest, by simp [writeLibs, hc, hrest]⟩

theorem writeLibs_ok (p : String) {ch : List Child}
    (h : ∀ c ∈ ch, soLibs c ≠ []) :
    ∀ acc, writeLibs p ch acc = (Except.ok (), acc ++ allLibEntries ch) := by
  induction ch with
  | nil => intro acc; simp [writeLibs, allLibEntries]
  | cons c cs ih =>
    intro acc
    have hc : soLibs c ≠ [] := h c (by simp)
    have ih' := ih (fun c' hc' => h c' (by simp [hc'])) (acc ++ jniEntries c)
    simp [writeLibs, hc, ih', allLibEntries]

theorem writeLibs_stop (p : String) {ch : List Child}
    (h : ∃ c ∈ ch, soLibs c = []) :
    ∀ acc, ∃ l₁ c l₂, ch = l₁ ++ c :: l₂ ∧ (∀ c' ∈ l₁, soLibs c' ≠ []) ∧
      soLibs c = [] ∧
      writeLibs p ch acc = (Except.error (noLibsMsg p c), acc ++ allLibEntries l₁) := by
  induction ch with
  | nil => simp at h
  | cons c cs ih =>
    intro acc
    by_cases hc : soLibs c = []
    · exact ⟨[], c, cs, rfl, by simp, hc, by simp [writeLibs, hc, allLibEntries]⟩
    · have h' : ∃ c' ∈ cs, soLibs c' = [] := by
        obtain ⟨c', hc', hnil⟩ := h
        rcases List.mem_cons.mp hc' with rfl | hmem
        · exact absurd hnil hc
        · exact ⟨c', hmem, hnil⟩
      obtain ⟨l₁, c₀, l₂, hsplit, hpre, hnil, heq⟩ := ih h' (acc ++ jniEntries c)
      refine ⟨c :: l₁, c₀, l₂, by simp [hsplit], ?_, hnil, ?_⟩
      · intro c' hc'
        rcases List.mem_cons.mp hc' with rfl | hmem
        · exact hc
        · exact hpre c' hmem
      · simp [writeLibs, hc, heq, allLibEntries]

theorem writeLibs_ok_iff (p : String) (ch : List Child) (acc : List Entry) :
    (writeLibs p ch acc).1 = Except.ok () ↔ ∀ c ∈ ch, soLibs c ≠ [] := by
  constructor
  · intro hok
    by_contra hnot
    push_neg at hnot
    obtain ⟨c, hc, hnil⟩ := hnot
    obtain ⟨l₁, c₀, l₂, _, _, _, heq⟩ := writeLibs_stop p ⟨c, hc, hnil⟩ acc
    rw [heq] at hok
    simp at hok
  · intro h
    rw [writeLibs_ok p h acc]

/-! ### Entry names: injectivity and distinctness -/

/-- A path component never contains the path separator. -/
def noSlash (s : String) : Prop := '/' ∉ s.data

instance (s : String) : Decidable (noSlash s) := by unfold noSlash; infer_instance

theorem sep_split {α : Type} (a : α) :
    ∀ (x₁ x₂ : List α) {y₁ y₂ : List α}, a ∉ x₁ → a ∉ x₂ →
      x₁ ++ a :: y₁ = x₂ ++ a :: y₂ → x₁ = x₂ ∧ y₁ = y₂ := by
  intro x₁
  induction x₁ with
  | nil =>
    intro x₂ y₁ y₂ _ h₂ heq
    cases x₂ with
    | nil => simpa using heq
    | cons b x₂ =>
      simp only [List.nil_append, List.cons_append, List.cons.injEq] at heq
      exact absurd (heq.1 ▸ List.mem_cons_self b x₂) h₂
  | cons b x₁ ih =>
    intro x₂ y₁ y₂ h₁ h₂ heq
    cases x₂ with
    | nil =>
      simp only [List.cons_append, List.nil_append, List.cons.injEq] at heq
      exact absurd (heq.1 ▸ List.mem_cons_self b x₁) h₁
    | cons c x₂ =>
      simp only [List.cons_append, List.cons.injEq] at heq
      obtain ⟨rfl, heq⟩ := heq
      obtain ⟨rfl, rfl⟩ := ih x₂ (fun h => h₁ (List.mem_cons_of_mem _ h))
        (fun h => h₂ (List.mem_cons_of_mem _ h)) heq
      exact ⟨rfl, rfl⟩

theorem jniName_data (abi f : String) :
    (jniName abi f).data = "jni/".data ++ (abi.data ++ '/' :: f.data) := by
  have hsep : "/".data = ['/'] := by decide
  simp [jniName, String.data_append, hsep, List.append_assoc]

theorem jniName_inj {a₁ a₂ f₁ f₂ : String} (h₁ : noSlash a₁) (h₂ : noSlash a₂)
    (h : jniName a₁ f₁ = jniName a₂ f₂) : a₁ = a₂ ∧ f₁ = f₂ := by
  have hd := congrArg String.data h
  rw [jniName_data, jniName_data] at hd
  have hc := List.append_cancel_left hd
  obtain ⟨ha, hf⟩ := sep_split '/' a₁.data a₂.data h₁ h₂ hc
  exact ⟨str_ext ha, str_ext hf⟩

theorem jniName_injRight (abi : String) {f₁ f₂ : String}
    (h : jniName abi f₁ = jniName abi f₂) : f₁ = f₂ := by
  have hd := congrArg String.data h
  rw [jniName_data, jniName_data] at hd
  have hc := List.append_cancel_left (List.append_cancel_left hd)
  exact str_ext (by simpa using hc)

theorem jniName_ne_manifest (abi f : String) : jniName abi f ≠ "AndroidManifest.xml" := by
  intro h
  have hd := congrArg (fun s => s.data.head?) h
  have hjni : "jni/".data = ['j', 'n', 'i', '/'] := by decide
  have hm : "AndroidManifest.xml".data.head? = some 'A' := by decide
  simp only [jniName_data, hjni, hm, List.cons_append, List.head?_cons] at hd
  exact absurd (Option.some.inj hd) (by decide)

theorem mem_allLibEntries {e : Entry} {ch : List Child} :
    e ∈ allLibEntries ch ↔ ∃ c ∈ ch, e ∈ jniEntries c := by
  induction ch with
  | nil => simp [allLibEntries]
  | cons c cs ih => simp [allLibEntries, ih]

theorem allLibEntries_names (ch : List Child) :
    (allLibEntries ch).map Entry.name
      = (ch.map (fun c => (soLibs c).map (fun f => jniName (childName c) f.name))).flatten := by
  induction ch with
  | nil => simp [allLibEntries]
  | cons c cs ih => simp [allLibEntries, jniEntries, ih, List.map_map]

theorem soLibs_names_nodup {c : Child}
    (hfiles : ((childFiles c).map SrcFile.name).Nodup) :
    ((soLibs c).map SrcFile.name).Nodup := by
  cases c with
  | file f => simp [soLibs]
  | dir n fs =>
    exact List.Nodup.sublist (List.Sublist.map _ (List.filter_sublist fs)) hfiles

theorem aar_names_nodup (ch : List Child) (g a : String) (m : Int)
    (hnames : (ch.map childName).Nodup)
    (hslash : ∀ c ∈ ch, noSlash (childName c))
    (hfiles : ∀ c ∈ ch, ((childFiles c).map SrcFile.name).Nodup) :
    ((manifestEntry g a m :: allLibEntries ch).map Entry.name).Nodup := by
  rw [List.map_cons]
  refine List.nodup_cons.mpr ⟨?_, ?_⟩
  · intro hmem
    rw [List.mem_map] at hmem
    obtain ⟨e, he, hname⟩ := hmem
    obtain ⟨c, _, hje⟩ := mem_allLibEntries.mp he
    rw [jniEntries, List.mem_map] at hje
    obtain ⟨f, _, rfl⟩ := hje
    exact jniName_ne_manifest _ _ (by simpa [manifestEntry] using hname)
  · rw [allLibEntries_names, List.nodup_flatten]
    constructor
    · intro l hl
      rw [List.mem_map] at hl
      obtain ⟨c, hc, rfl⟩ := hl
      have h1 : ((soLibs c).map SrcFile.name).Nodup := soLibs_names_nodup (hfiles c hc)
      have h2 := List.Nodup.map (f := jniName (childName c))
        (fun f₁ f₂ h => jniName_injRight (childName c) h) h1
      simpa [List.map_map, Function.comp] using h2
    · rw [List.pairwise_map]
      have hp : ch.Pairwise (fun c c' => childName c ≠ childName c') :=
        List.pairwise_map.mp hnames
      refine hp.imp_of_mem ?_
      intro c c' hc hc' hne x hx hx'
      rw [List.mem_map] at hx hx'
      obtain ⟨f, _, rfl⟩ := hx
      obtain ⟨f', _, heq⟩ := hx'
      exact hne (jniName_inj (hslash c hc) (hslash c' hc') heq.symm).1

theorem string_append_assoc (a b c : String) : a ++ b ++ c = a ++ (b ++ c) :=
  str_ext (by simp [String.data_append])

theorem soLibs_ne_nil_of_match {ch : List Child}
    (habi : ∀ c ∈ ch, ∃ n fs, c = Child.dir n fs ∧
      ∃ f ∈ fs, matchesSo f.name = true) :
    ∀ c ∈ ch, soLibs c ≠ [] := by
  intro c hc
  obtain ⟨n, fs, rfl, f, hf, hmatch⟩ := habi c hc
  exact List.ne_nil_of_mem (List.mem_filter.mpr ⟨hf, hmatch⟩)

/-- C1: for every library directory whose immediate children are ABI
subdirectories each containing at least one file matching `*.so`,
`generate_aar` succeeds, and the produced archive holds exactly one
`AndroidManifest.xml` entry plus, for each matching file `f` in ABI
subdirectory `a`, exactly one entry `jni/<a>/<f>` whose content is
byte-identical to the source file, and no other entries.  The entry list is
pinned exactly (`manifestEntry` followed by the per-child `*.so` entries),
entry names are pairwise distinct (so each of these entries occurs exactly
once), and each matching file contributes its byte-identical entry.  The
distinctness hypotheses `hnames`/`hslash`/`hfiles` are filesystem
invariants: children of one directory have distinct names, and path
components contain no separator. -/
theorem claim1_complete_archive (p : String) (ch : List Child) (g a : String) (m : Int)
    (habi : ∀ c ∈ ch, ∃ n fs, c = Child.dir n fs ∧
      ∃ f ∈ fs, matchesSo f.name = true)
    (hnames : (ch.map childName).Nodup)
    (hslash : ∀ c ∈ ch, noSlash (childName c))
    (hfiles : ∀ c ∈ ch, ((childFiles c).map SrcFile.name).Nodup) :
    (generate_aar p ch g a m).1 = Except.ok () ∧
    (generate_aar p ch g a m).2.entries = manifestEntry g a m :: allLibEntries ch ∧
    ((generate_aar p ch g a m).2.entries.map Entry.name).Nodup ∧
    ∀ c ∈ ch, ∀ f ∈ soLibs c,
      Entry.mk (jniName (childName c) f.name) (Sum.inr f.content)
        ∈ (generate_aar p ch g a m).2.entries := by
  have hok := soLibs_ne_nil_of_match habi
  have hrun := writeLibs_ok p hok [manifestEntry g a m]
  have hent : (generate_aar p ch g a m).2.entries = manifestEntry g a m :: allLibEntries ch := by
    simp [generate_aar, hrun]
  refine ⟨by simp [generate_aar, hrun], hent, ?_, ?_⟩
  · rw [hent]
    exact aar_names_nodup ch g a m hnames hslash hfiles
  · intro c hc f hf
    rw [hent]
    refine List.mem_cons_of_mem _ (mem_allLibEntries.mpr ⟨c, hc, ?_⟩)
    exact List.mem_map.mpr ⟨f, hf, rfl⟩

theorem claim1_witness :
    (generate_aar "lib"
        [Child.dir "arm64-v8a" [⟨"libfoo.so", [0, 1]⟩],
         Child.dir "x86_64" [⟨"libfoo.so", [2]⟩]] "com.example" "foo" 26).1
      = Except.ok () ∧
    (generate_aar "lib"
        [Child.dir "arm64-v8a" [⟨"libfoo.so", [0, 1]⟩],
         Child.dir "x86_64" [⟨"libfoo.so", [2]⟩]] "com.example" "foo" 26).2.entries
      = manifestEntry "com.example" "foo" 26
          :: allLibEntries
            [Child.dir "arm64-v8a" [⟨"libfoo.so", [0, 1]⟩],
             Child.dir "x86_64" [⟨"libfoo.so", [2]⟩]] ∧
    ((generate_aar "lib"
        [Child.dir "arm64-v8a" [⟨"libfoo.so", [0, 1]⟩],
         Child.dir "x86_64" [⟨"libfoo.so", [2]⟩]] "com.example" "foo" 26).2.entries.map
      Entry.name).Nodup := by
  have h := claim1_complete_archive "lib"
    [Child.dir "arm64-v8a" [⟨"libfoo.so", [0, 1]⟩],
     Child.dir "x86_64" [⟨"libfoo.so", [2]⟩]] "com.example" "foo" 26
    (by
      intro c hc
      rcases List.mem_cons.mp hc with rfl | hc'
      · exact ⟨"arm64-v8a", [⟨"libfoo.so", [0, 1]⟩], rfl, by decide⟩
      · rcases List.mem_cons.mp hc' with rfl | h0
        · exact ⟨"x86_64", [⟨"libfoo.so", [2]⟩], rfl, by decide⟩
        · simp at h0)
    (by decide) (by decide) (by decide)
  exact ⟨h.1, h.2.1, h.2.2.1⟩

/-- C2: for every call to `generate_aar`, the `AndroidManifest.xml` entry
written to the archive (its first entry, on the success path and on the
raising path alike) is the minimal manifest document whose root `manifest`
element carries the `xmlns:android` declaration, whose `package` attribute
is `<group_id>.<artifact_id>`, and whose single child `uses-sdk` element
has `android:minSdkVersion` equal to the given integer. -/
theorem claim2_manifest_entry (p : String) (ch : List Child) (g a : String) (m : Int) :
    ∃ rest, (generate_aar p ch g a m).2.entries =
      Entry.mk "AndroidManifest.xml" (Sum.inl
        ("<?xml version=\"1.0\" encoding=\"utf-8\"?>\n<manifest xmlns:android=\"http://schemas.android.com/apk/res/android\"\n    package=\""
          ++ (g ++ "." ++ a)
          ++ "\" >\n    <uses-sdk android:minSdkVersion=\"" ++ toString m
          ++ "\" />\n</manifest>\n")) :: rest := by
  obtain ⟨rest, hrest⟩ := writeLibs_snd p ch [manifestEntry g a m]
  refine ⟨rest, ?_⟩
  have : (generate_aar p ch g a m).2.entries = manifestEntry g a m :: rest := by
    simp [generate_aar, hrest]
  rw [this]
  simp [manifestEntry, manifestContent, string_append_assoc]

/-- C3: for every library directory in which some immediate subdirectory
contains zero files matching `*.so`, `generate_aar` raises rather than
returning success, and the `RuntimeError` message names the offending
directory (library path joined with the child name) and the `*.so`
pattern. -/
theorem claim3_fail_on_empty_abi (p : String) (ch : List Child) (g a : String) (m : Int)
    (h : ∃ n fs, Child.dir n fs ∈ ch ∧
      fs.filter (fun f => matchesSo f.name) = []) :
    (∃ c ∈ ch, soLibs c = [] ∧
      (generate_aar p ch g a m).1 =
        Except.error ("No libraries found matching " ++ p ++ "/" ++ childName c ++ "/*.so")) ∧
    (generate_aar p ch g a m).1 ≠ Except.ok () := by
  obtain ⟨n, fs, hmem, hfilter⟩ := h
  have hnil : ∃ c ∈ ch, soLibs c = [] := ⟨Child.dir n fs, hmem, hfilter⟩
  obtain ⟨l₁, c₀, l₂, hsplit, _, hnil₀, heq⟩ :=
    writeLibs_stop p hnil [manifestEntry g a m]
  have hc₀ : c₀ ∈ ch := by rw [hsplit]; exact List.mem_append_right _ (List.mem_cons_self _ _)
  have herr : (generate_aar p ch g a m).1 = Except.error (noLibsMsg p c₀) := by
    simp [generate_aar, heq]
  exact ⟨⟨c₀, hc₀, hnil₀, by rw [herr]; rfl⟩, by rw [herr]; simp⟩

theorem claim3_witness :
    (∃ c ∈ [Child.dir "arm64-v8a" ([] : List SrcFile)], soLibs c = [] ∧
      (generate_aar "lib" [Child.dir "arm64-v8a" []] "com.example" "foo" 26).1 =
        Except.error ("No libraries found matching " ++ "lib" ++ "/" ++ childName c ++ "/*.so")) ∧
    (generate_aar "lib" [Child.dir "arm64-v8a" []] "com.example" "foo" 26).1 ≠ Except.ok () :=
  claim3_fail_on_empty_abi "lib" [Child.dir "arm64-v8a" []] "com.example" "foo" 26
    ⟨"arm64-v8a", [], by simp, rfl⟩

/-- C10: for a library directory with no immediate children at all,
`generate_aar` succeeds and the archive holds exactly one entry, the
manifest: the per-ABI requirement is vacuously satisfied. -/
theorem claim10_empty_library_dir (p g a : String) (m : Int) :
    generate_aar p [] g a m = (Except.ok (), ⟨true, true, [manifestEntry g a m]⟩) ∧
    ((generate_aar p [] g a m).2.entries.map Entry.name) = ["AndroidManifest.xml"] :=
  ⟨rfl, rfl⟩

deriving instance DecidableEq for Except

/-! ### C4 and C9: failure leaves a valid partial archive; the error names
the first offending child -/

/-- C4 counterexample: the claim says that after a failed call the output
file is either not created or not left in a usable state.  On the concrete
input below (a single ABI directory with no `*.so` files) the call fails,
yet `ZipFile(output_path, mode="w")` created the output file and the `with`
statement closed it, writing the central directory — a valid, readable
(one-entry) archive exists at `output_path`. -/
theorem claim4_counterexample :
    (generate_aar "lib" [Child.dir "x86_64" []] "com.example" "foo" 26).1 ≠ Except.ok () ∧
    (generate_aar "lib" [Child.dir "x86_64" []] "com.example" "foo" 26).2.created = true ∧
    (generate_aar "lib" [Child.dir "x86_64" []] "com.example" "foo" 26).2.closed = true ∧
    (generate_aar "lib" [Child.dir "x86_64" []] "com.example" "foo" 26).2.entries ≠ [] := by
  refine ⟨by decide, rfl, rfl, by decide⟩

/-- C4 amended: when some ABI subdirectory has no `*.so` files the call
fails and surfaces the error, and the output file is created and left as a
validly closed archive containing the manifest entry plus the entries of
the children preceding the first offending one — a partial archive, never
a successful result (the implementation does not clean it up). -/
theorem claim4_partial_archive (p : String) (ch : List Child) (g a : String) (m : Int)
    (h : ∃ n fs, Child.dir n fs ∈ ch ∧
      fs.filter (fun f => matchesSo f.name) = []) :
    (generate_aar p ch g a m).1 ≠ Except.ok () ∧
    (generate_aar p ch g a m).2.created = true ∧
    (generate_aar p ch g a m).2.closed = true ∧
    ∃ l₁ c l₂, ch = l₁ ++ c :: l₂ ∧ (∀ c' ∈ l₁, soLibs c' ≠ []) ∧ soLibs c = [] ∧
      (generate_aar p ch g a m).1 = Except.error (noLibsMsg p c) ∧
      (generate_aar p ch g a m).2.entries = manifestEntry g a m :: allLibEntries l₁ := by
  obtain ⟨n, fs, hmem, hfilter⟩ := h
  obtain ⟨l₁, c₀, l₂, hsplit, hpre, hnil₀, heq⟩ :=
    writeLibs_stop p ⟨Child.dir n fs, hmem, hfilter⟩ [manifestEntry g a m]
  refine ⟨?_, rfl, rfl, l₁, c₀, l₂, hsplit, hpre, hnil₀, ?_, ?_⟩
  · simp [generate_aar, heq]
  · simp [generate_aar, heq]
  · simp [generate_aar, heq]

theorem claim4_witness :
    (generate_aar "lib" [Child.dir "x86_64" []] "com.example" "foo" 26).1 ≠ Except.ok () ∧
    (generate_aar "lib" [Child.dir "x86_64" []] "com.example" "foo" 26).2.created = true ∧
    (generate_aar "lib" [Child.dir "x86_64" []] "com.example" "foo" 26).2.closed = true ∧
    ∃ l₁ c l₂, [Child.dir "x86_64" []] = l₁ ++ c :: l₂ ∧
      (∀ c' ∈ l₁, soLibs c' ≠ []) ∧ soLibs c = [] ∧
      (generate_aar "lib" [Child.dir "x86_64" []] "com.example" "foo" 26).1 =
        Except.error (noLibsMsg "lib" c) ∧
      (generate_aar "lib" [Child.dir "x86_64" []] "com.example" "foo" 26).2.entries =
        manifestEntry "com.example" "foo" 26 :: allLibEntries l₁ :=
  claim4_partial_archive "lib" [Child.dir "x86_64" []] "com.example" "foo" 26
    ⟨"x86_64", [], by simp, rfl⟩

/-- C9 counterexample: the claim says that for a non-directory immediate
child the call raises the no-libraries error *naming that child*.  With two
children of empty match set, the raised error names the first one in
iteration order, so for the second non-directory child (which the claim
also quantifies over) the call fails but the error does not name it. -/
theorem claim9_counterexample :
    Child.file ⟨"b", []⟩ ∈ [Child.file ⟨"a", []⟩, Child.file ⟨"b", []⟩] ∧
    (generate_aar "lib" [Child.file ⟨"a", []⟩, Child.file ⟨"b", []⟩] "g" "f" 26).1
      ≠ Except.ok () ∧
    (generate_aar "lib" [Child.file ⟨"a", []⟩, Child.file ⟨"b", []⟩] "g" "f" 26).1
      ≠ Except.error (noLibsMsg "lib" (Child.file ⟨"b", []⟩)) := by
  refine ⟨by decide, by decide, by decide⟩

/-- C9 amended: for every library directory containing a non-directory
immediate child, the iteration covers that child, its `*.so` match set is
empty (so `generate_aar` never succeeds), and the call raises the
no-libraries error naming the first child in iteration order whose match
set is empty — the non-directory child itself whenever no earlier child
also has an empty match set. -/
theorem claim9_nondir_child_fails (p : String) (ch : List Child) (g a : String) (m : Int)
    (h : ∃ f, Child.file f ∈ ch) :
    (∀ f, soLibs (Child.file f) = []) ∧
    (generate_aar p ch g a m).1 ≠ Except.ok () ∧
    ∃ l₁ c l₂, ch = l₁ ++ c :: l₂ ∧ (∀ c' ∈ l₁, soLibs c' ≠ []) ∧ soLibs c = [] ∧
      (generate_aar p ch g a m).1 = Except.error (noLibsMsg p c) := by
  obtain ⟨f, hf⟩ := h
  obtain ⟨l₁, c₀, l₂, hsplit, hpre, hnil₀, heq⟩ :=
    writeLibs_stop p ⟨Child.file f, hf, rfl⟩ [manifestEntry g a m]
  refine ⟨fun _ => rfl, ?_, l₁, c₀, l₂, hsplit, hpre, hnil₀, ?_⟩
  · simp [generate_aar, heq]
  · simp [generate_aar, heq]

theorem claim9_witness :
    soLibs (Child.file ⟨"notadir.txt", []⟩) = [] ∧
    (generate_aar "lib" [Child.file ⟨"notadir.txt", []⟩] "g" "f" 26).1 ≠ Except.ok () ∧
    ∃ l₁ c l₂, [Child.file ⟨"notadir.txt", ([] : Bytes)⟩] = l₁ ++ c :: l₂ ∧
      (∀ c' ∈ l₁, soLibs c' ≠ []) ∧ soLibs c = [] ∧
      (generate_aar "lib" [Child.file ⟨"notadir.txt", []⟩] "g" "f" 26).1 =
        Except.error (noLibsMsg "lib" c) := by
  have h := claim9_nondir_child_fails "lib" [Child.file ⟨"notadir.txt", []⟩] "g" "f" 26
    ⟨⟨"notadir.txt", []⟩, by simp⟩
  exact ⟨h.1 _, h.2.1, h.2.2⟩

/-! ### C5: the archive's logical entry set is stable across runs -/

/-- Two children denote the same filesystem object: same kind, same name,
same files (a directory's listing taken up to order). -/
def childEquiv : Child → Child → Prop
  | .file f₁, .file f₂ => f₁ = f₂
  | .dir n₁ fs₁, .dir n₂ fs₂ => n₁ = n₂ ∧ fs₁.Perm fs₂
  | _, _ => False

/-- Two listings enumerate the same library directory: the same children up
to the (OS-dependent) order in which `iterdir` and `glob` yield them. -/
def TreePerm (l₁ l₂ : List Child) : Prop :=
  ∃ l, List.Forall₂ childEquiv l₁ l ∧ l.Perm l₂

theorem soLibs_perm_of_childEquiv {c₁ c₂ : Child} (h : childEquiv c₁ c₂) :
    (soLibs c₁).Perm (soLibs c₂) := by
  cases c₁ with
  | file f₁ =>
    cases c₂ with
    | file f₂ => cases h; exact List.Perm.refl _
    | dir n₂ fs₂ => exact absurd h (by simp [childEquiv])
  | dir n₁ fs₁ =>
    cases c₂ with
    | file f₂ => exact absurd h (by simp [childEquiv])
    | dir n₂ fs₂ => exact (h.2.filter _)

theorem jniEntries_perm_of_childEquiv {c₁ c₂ : Child} (h : childEquiv c₁ c₂) :
    (jniEntries c₁).Perm (jniEntries c₂) := by
  cases c₁ with
  | file f₁ =>
    cases c₂ with
    | file f₂ => cases h; exact List.Perm.refl _
    | dir n₂ fs₂ => exact absurd h (by simp [childEquiv])
  | dir n₁ fs₁ =>
    cases c₂ with
    | file f₂ => exact absurd h (by simp [childEquiv])
    | dir n₂ fs₂ =>
      obtain ⟨rfl, hp⟩ := h
      exact (hp.filter _).map _

theorem allLib_perm_of_forall₂ {l₁ l₂ : List Child}
    (h : List.Forall₂ childEquiv l₁ l₂) :
    (allLibEntries l₁).Perm (allLibEntries l₂) := by
  induction h with
  | nil => exact List.Perm.refl _
  | cons hab _ ih => exact (jniEntries_perm_of_childEquiv hab).append ih

theorem allLib_perm_of_perm {l₁ l₂ : List Child} (h : l₁.Perm l₂) :
    (allLibEntries l₁).Perm (allLibEntries l₂) := by
  induction h with
  | nil => exact List.Perm.refl _
  | cons x _ ih => exact (List.Perm.refl (jniEntries x)).append ih
  | swap x y l =>
    show (jniEntries y ++ (jniEntries x ++ allLibEntries l)).Perm
      (jniEntries x ++ (jniEntries y ++ allLibEntries l))
    rw [← List.append_assoc, ← List.append_assoc]
    exact List.perm_append_comm.append (List.Perm.refl _)
  | trans _ _ ih₁ ih₂ => exact ih₁.trans ih₂

theorem forall₂_mem_right {l₁ l₂ : List Child}
    (h : List.Forall₂ childEquiv l₁ l₂) {c₂ : Child} (hc : c₂ ∈ l₂) :
    ∃ c₁ ∈ l₁, childEquiv c₁ c₂ := by
  induction h with
  | nil => simp at hc
  | cons hab _ ih =>
    rcases List.mem_cons.mp hc with rfl | hmem
    · exact ⟨_, List.mem_cons_self _ _, hab⟩
    · obtain ⟨c₁, hc₁, he⟩ := ih hmem
      exact ⟨c₁, List.mem_cons_of_mem _ hc₁, he⟩

theorem forall₂_mem_left {l₁ l₂ : List Child}
    (h : List.Forall₂ childEquiv l₁ l₂) {c₁ : Child} (hc : c₁ ∈ l₁) :
    ∃ c₂ ∈ l₂, childEquiv c₁ c₂ := by
  induction h with
  | nil => simp at hc
  | cons hab _ ih =>
    rcases List.mem_cons.mp hc with rfl | hmem
    · exact ⟨_, List.mem_cons_self _ _, hab⟩
    · obtain ⟨c₂, hc₂, he⟩ := ih hmem
      exact ⟨c₂, List.mem_cons_of_mem _ hc₂, he⟩

theorem soLibs_ne_nil_of_treePerm {l₁ l₂ : List Child} (h : TreePerm l₁ l₂) :
    (∀ c ∈ l₁, soLibs c ≠ []) ↔ ∀ c ∈ l₂, soLibs c ≠ [] := by
  obtain ⟨l, hf, hp⟩ := h
  constructor
  · intro h₁ c hc
    obtain ⟨c₁, hc₁, he⟩ := forall₂_mem_right hf (hp.mem_iff.mpr hc)
    intro hnil
    exact h₁ c₁ hc₁ (List.Perm.eq_nil (hnil ▸ soLibs_perm_of_childEquiv he))
  · intro h₂ c hc
    obtain ⟨c₂, hc₂, he⟩ := forall₂_mem_left hf hc
    intro hnil
    exact h₂ c₂ (hp.mem_iff.mp hc₂) (List.Perm.eq_nil (hnil ▸ (soLibs_perm_of_childEquiv he).symm))

/-- C5: two runs on the same inputs — the same directory tree (listed in
whatever orders the OS yields it), the same identifiers and SDK version —
produce archives with the same logical entry set: both start with the
byte-for-byte identical manifest entry, both succeed or both fail, and on
success the entry lists are permutations of each other (identical names
with identical contents; only the order, like zip-internal timestamps, may
differ). -/
theorem claim5_stable_entry_set (p : String) (l₁ l₂ : List Child) (g a : String) (m : Int)
    (h : TreePerm l₁ l₂) :
    ((generate_aar p l₁ g a m).1 = Except.ok () ↔
      (generate_aar p l₂ g a m).1 = Except.ok ()) ∧
    (generate_aar p l₁ g a m).2.entries.head? = some (manifestEntry g a m) ∧
    (generate_aar p l₂ g a m).2.entries.head? = some (manifestEntry g a m) ∧
    ((generate_aar p l₁ g a m).1 = Except.ok () →
      ((generate_aar p l₁ g a m).2.entries).Perm ((generate_aar p l₂ g a m).2.entries)) := by
  have hiff := soLibs_ne_nil_of_treePerm h
  refine ⟨?_, ?_, ?_, ?_⟩
  · rw [show (generate_aar p l₁ g a m).1 = (writeLibs p l₁ [manifestEntry g a m]).1 from rfl,
      show (generate_aar p l₂ g a m).1 = (writeLibs p l₂ [manifestEntry g a m]).1 from rfl,
      writeLibs_ok_iff, writeLibs_ok_iff]
    exact hiff
  · obtain ⟨rest, hrest⟩ := writeLibs_snd p l₁ [manifestEntry g a m]
    simp [generate_aar, hrest]
  · obtain ⟨rest, hrest⟩ := writeLibs_snd p l₂ [manifestEntry g a m]
    simp [generate_aar, hrest]
  · intro hok
    have h₁ : ∀ c ∈ l₁, soLibs c ≠ [] := by
      have := (writeLibs_ok_iff p l₁ [manifestEntry g a m]).mp
      exact this (by simpa [generate_aar] using hok)
    have h₂ : ∀ c ∈ l₂, soLibs c ≠ [] := hiff.mp h₁
    have e₁ := writeLibs_ok p h₁ [manifestEntry g a m]
    have e₂ := writeLibs_ok p h₂ [manifestEntry g a m]
    obtain ⟨l, hf, hp⟩ := h
    have hperm : (allLibEntries l₁).Perm (allLibEntries l₂) :=
      (allLib_perm_of_forall₂ hf).trans (allLib_perm_of_perm hp)
    simpa [generate_aar, e₁, e₂] using hperm.cons (manifestEntry g a m)

theorem claim5_witness :
    TreePerm
      [Child.dir "arm64-v8a" [⟨"x.so", [1]⟩, ⟨"y.so", [2]⟩], Child.dir "x86_64" [⟨"z.so", [3]⟩]]
      [Child.dir "x86_64" [⟨"z.so", [3]⟩], Child.dir "arm64-v8a" [⟨"y.so", [2]⟩, ⟨"x.so", [1]⟩]] ∧
    (((generate_aar "lib"
        [Child.dir "arm64-v8a" [⟨"x.so", [1]⟩, ⟨"y.so", [2]⟩],
         Child.dir "x86_64" [⟨"z.so", [3]⟩]] "g" "f" 26).1 = Except.ok () ↔
      (generate_aar "lib"
        [Child.dir "x86_64" [⟨"z.so", [3]⟩],
         Child.dir "arm64-v8a" [⟨"y.so", [2]⟩, ⟨"x.so", [1]⟩]] "g" "f" 26).1 = Except.ok ()) ∧
    (generate_aar "lib"
        [Child.dir "arm64-v8a" [⟨"x.so", [1]⟩, ⟨"y.so", [2]⟩],
         Child.dir "x86_64" [⟨"z.so", [3]⟩]] "g" "f" 26).2.entries.head?
      = some (manifestEntry "g" "f" 26) ∧
    (generate_aar "lib"
        [Child.dir "x86_64" [⟨"z.so", [3]⟩],
         Child.dir "arm64-v8a" [⟨"y.so", [2]⟩, ⟨"x.so", [1]⟩]] "g" "f" 26).2.entries.head?
      = some (manifestEntry "g" "f" 26) ∧
    ((generate_aar "lib"
        [Child.dir "arm64-v8a" [⟨"x.so", [1]⟩, ⟨"y.so", [2]⟩],
         Child.dir "x86_64" [⟨"z.so", [3]⟩]] "g" "f" 26).1 = Except.ok () →
      ((generate_aar "lib"
        [Child.dir "arm64-v8a" [⟨"x.so", [1]⟩, ⟨"y.so", [2]⟩],
         Child.dir "x86_64" [⟨"z.so", [3]⟩]] "g" "f" 26).2.entries).Perm
       ((generate_aar "lib"
        [Child.dir "x86_64" [⟨"z.so", [3]⟩],
         Child.dir "arm64-v8a" [⟨"y.so", [2]⟩, ⟨"x.so", [1]⟩]] "g" "f" 26).2.entries))) := by
  have ht : TreePerm
      [Child.dir "arm64-v8a" [⟨"x.so", [1]⟩, ⟨"y.so", [2]⟩], Child.dir "x86_64" [⟨"z.so", [3]⟩]]
      [Child.dir "x86_64" [⟨"z.so", [3]⟩], Child.dir "arm64-v8a" [⟨"y.so", [2]⟩, ⟨"x.so", [1]⟩]] := by
    refine ⟨[Child.dir "arm64-v8a" [⟨"y.so", [2]⟩, ⟨"x.so", [1]⟩], Child.dir "x86_64" [⟨"z.so", [3]⟩]],
      ?_, by decide⟩
    exact List.Forall₂.cons ⟨rfl, by decide⟩ (List.Forall₂.cons ⟨rfl, by decide⟩ List.Forall₂.nil)
  exact ⟨ht, claim5_stable_entry_set "lib" _ _ "g" "f" 26 ht⟩

/-! ### C6 and C7: the jitpack driver's environment and NDK metadata reads -/

/-- `artifact_info_from_env` from `scripts/jitpack.py`: look up `GROUP`,
`ARTIFACT` and `VERSION` in that order (Python evaluates the tuple left to
right, so the `KeyError` carries the first missing name), and on a missing
variable call `sys.exit(f"... must be set in the environment")` —
modelled as `Except.error`, terminating with no further work.  `env` is
`os.environ`. -/
def artifact_info_from_env (env : String → Option String) :
    Except String (String × String × String) :=
  match env "GROUP" with
  | none => Except.error "GROUP must be set in the environment"
  | some g =>
    match env "ARTIFACT" with
    | none => Except.error "ARTIFACT must be set in the environment"
    | some a =>
      match env "VERSION" with
      | none => Except.error "VERSION must be set in the environment"
      | some v => Except.ok (g, a, v)

/-- C6: if any of `GROUP`, `ARTIFACT`, `VERSION` is unset, the driver exits
with a message naming the first missing variable (in lookup order), doing
nothing else; if all three are set it returns the triple. -/
theorem claim6_artifact_info (env : String → Option String) :
    (env "GROUP" = none →
      artifact_info_from_env env = Except.error "GROUP must be set in the environment") ∧
    (∀ g, env "GROUP" = some g → env "ARTIFACT" = none →
      artifact_info_from_env env = Except.error "ARTIFACT must be set in the environment") ∧
    (∀ g a, env "GROUP" = some g → env "ARTIFACT" = some a → env "VERSION" = none →
      artifact_info_from_env env = Except.error "VERSION must be set in the environment") ∧
    (∀ g a v, env "GROUP" = some g → env "ARTIFACT" = some a → env "VERSION" = some v →
      artifact_info_from_env env = Except.ok (g, a, v)) := by
  refine ⟨fun h => ?_, fun g h1 h2 => ?_, fun g a h1 h2 h3 => ?_, fun g a v h1 h2 h3 => ?_⟩ <;>
    simp [artifact_info_from_env, *]

theorem claim6_witness :
    artifact_info_from_env (fun _ => none) =
      Except.error "GROUP must be set in the environment" ∧
    artifact_info_from_env
      (fun v => if v = "GROUP" then some "com.example" else
        if v = "ARTIFACT" then some "foo" else
        if v = "VERSION" then some "1.0" else none) =
      Except.ok ("com.example", "foo", "1.0") :=
  ⟨(claim6_artifact_info (fun _ => none)).1 rfl,
   (claim6_artifact_info _).2.2.2 "com.example" "foo" "1.0" rfl rfl rfl⟩

/-- The per-ABI record in `meta/abis.json`: the only field the driver reads
is the boolean `"default"`; the other descriptive fields do not influence
the traversal. -/
structure AbiMeta where
  isDefault : Bool
deriving DecidableEq

/-- `ndk_default_abis` from `scripts/jitpack.py`: read `ANDROID_NDK_HOME`
(exit if unset), check that `<ndk>/meta/abis.json` exists (exit if not),
then yield the names whose record has `"default"` true, in file order
(`json.load` preserves the object's member order in its `dict`).  `env` is
`os.environ`; `fs` maps a path to the parsed content of the JSON file there
(`none` when the file does not exist), which the claim assumes parses as an
object mapping ABI names to records with a boolean `default` field. -/
def ndk_default_abis (env : String → Option String)
    (fs : String → Option (List (String × AbiMeta))) : Except String (List String) :=
  match env "ANDROID_NDK_HOME" with
  | none => Except.error "ANDROID_NDK_HOME must be set in the environment"
  | some ndk =>
    match fs (ndk ++ "/meta/abis.json") with
    | none => Except.error (ndk ++ "/meta/abis.json does not exist. Does ANDROID_NDK_HOME ("
        ++ ndk ++ ") point to a valid NDK?")
    | some abisMeta =>
      Except.ok ((abisMeta.filter (fun p => p.2.isDefault)).map Prod.fst)

/-- C7: `ndk_default_abis` fails when `ANDROID_NDK_HOME` is unset or the
metadata file is absent; otherwise, for a metadata file parsing as an
object mapping ABI names to records with a boolean `default` field, it
yields exactly those names whose `default` field is true. -/
theorem claim7_ndk_default_abis (env : String → Option String)
    (fs : String → Option (List (String × AbiMeta))) :
    (env "ANDROID_NDK_HOME" = none →
      ndk_default_abis env fs = Except.error "ANDROID_NDK_HOME must be set in the environment") ∧
    (∀ ndk, env "ANDROID_NDK_HOME" = some ndk → fs (ndk ++ "/meta/abis.json") = none →
      ndk_default_abis env fs = Except.error (ndk
        ++ "/meta/abis.json does not exist. Does ANDROID_NDK_HOME ("
        ++ ndk ++ ") point to a valid NDK?")) ∧
    (∀ ndk abis, env "ANDROID_NDK_HOME" = some ndk →
      fs (ndk ++ "/meta/abis.json") = some abis →
      ndk_default_abis env fs =
        Except.ok ((abis.filter (fun p => p.2.isDefault)).map Prod.fst) ∧
      ∀ n, n ∈ (abis.filter (fun p => p.2.isDefault)).map Prod.fst ↔
        ∃ d, (n, d) ∈ abis ∧ d.isDefault = true) := by
  refine ⟨fun h => by simp [ndk_default_abis, h],
    fun ndk h1 h2 => by simp [ndk_default_abis, h1, h2],
    fun ndk abis h1 h2 => ⟨by simp [ndk_default_abis, h1, h2], fun n => ?_⟩⟩
  simp only [List.mem_map, List.mem_filter]
  constructor
  · rintro ⟨⟨n', d⟩, ⟨hmem, hdef⟩, rfl⟩
    exact ⟨d, hmem, hdef⟩
  · rintro ⟨d, hmem, hdef⟩
    exact ⟨(n, d), ⟨hmem, hdef⟩, rfl⟩

theorem claim7_witness :
    ndk_default_abis (fun _ => none) (fun _ => none) =
      Except.error "ANDROID_NDK_HOME must be set in the environment" ∧
    ndk_default_abis (fun v => if v = "ANDROID_NDK_HOME" then some "/ndk" else none)
        (fun _ => none) =
      Except.error ("/ndk" ++ "/meta/abis.json does not exist. Does ANDROID_NDK_HOME ("
        ++ "/ndk" ++ ") point to a valid NDK?") ∧
    ndk_default_abis (fun v => if v = "ANDROID_NDK_HOME" then some "/ndk" else none)
        (fun q => if q = "/ndk/meta/abis.json" then
          some [("arm64-v8a", ⟨true⟩), ("riscv64", ⟨false⟩), ("x86_64", ⟨true⟩)] else none) =
      Except.ok (([("arm64-v8a", (⟨true⟩ : AbiMeta)), ("riscv64", ⟨false⟩),
        ("x86_64", ⟨true⟩)].filter (fun p => p.2.isDefault)).map Prod.fst) ∧
    ("arm64-v8a" ∈ ([("arm64-v8a", (⟨true⟩ : AbiMeta)), ("riscv64", ⟨false⟩),
        ("x86_64", ⟨true⟩)].filter (fun p => p.2.isDefault)).map Prod.fst ∧
     ¬ "riscv64" ∈ ([("arm64-v8a", (⟨true⟩ : AbiMeta)), ("riscv64", ⟨false⟩),
        ("x86_64", ⟨true⟩)].filter (fun p => p.2.isDefault)).map Prod.fst) := by
  have h3 := (claim7_ndk_default_abis
    (fun v => if v = "ANDROID_NDK_HOME" then some "/ndk" else none)
    (fun q => if q = "/ndk/meta/abis.json" then
      some [("arm64-v8a", ⟨true⟩), ("riscv64", ⟨false⟩), ("x86_64", ⟨true⟩)] else none)).2.2
    "/ndk" [("arm64-v8a", ⟨true⟩), ("riscv64", ⟨false⟩), ("x86_64", ⟨true⟩)] rfl (by decide)
  refine ⟨(claim7_ndk_default_abis (fun _ => none) (fun _ => none)).1 rfl,
    (claim7_ndk_default_abis _ _).2.1 "/ndk" rfl (by decide), h3.1, ?_, ?_⟩
  · exact (h3.2 "arm64-v8a").mpr ⟨⟨true⟩, by decide, rfl⟩
  · intro hmem
    obtain ⟨d, hd, hdef⟩ := (h3.2 "riscv64").mp hmem
    simp only [List.mem_cons, List.not_mem_nil, or_false, Prod.mk.injEq] at hd
    rcases hd with ⟨h, _⟩ | ⟨_, rfl⟩ | ⟨h, _⟩
    · exact absurd h (by decide)
    · exact absurd hdef (by decide)
    · exact absurd h (by decide)

/-! ### C8: `scripts/jitpack.py` carries its own copy of `generate_aar`
(lines 78–105), token-identical to the one in `scripts/aar.py`.  We
transcribe it separately (sharing only the filesystem model) and prove the
two functions extensionally equal. -/

namespace Jitpack

/-- The manifest payload of `scripts/jitpack.py`'s `generate_aar` (the same
dedented f-string as in `scripts/aar.py`). -/
def manifestContent (group_id artifact_id : String) (min_sdk_version : Int) : String :=
  "<?xml version=\"1.0\" encoding=\"utf-8\"?>\n<manifest xmlns:android=\"http://schemas.android.com/apk/res/android\"\n    package=\"" ++ group_id ++ "." ++ artifact_id ++ "\" >\n    <uses-sdk android:minSdkVersion=\"" ++ toString min_sdk_version ++ "\" />\n</manifest>\n"

/-- The manifest entry written by `scripts/jitpack.py`'s `generate_aar`. -/
def manifestEntry (group_id artifact_id : String) (min_sdk_version : Int) : Entry :=
  ⟨"AndroidManifest.xml", Sum.inl (manifestContent group_id artifact_id min_sdk_version)⟩

/-- The `RuntimeError` message of `scripts/jitpack.py`'s `generate_aar`. -/
def noLibsMsg (libraryDirPath : String) (c : Child) : String :=
  "No libraries found matching " ++ libraryDirPath ++ "/" ++ childName c ++ "/*.so"

/-- The loop of `scripts/jitpack.py`'s `generate_aar`. -/
def writeLibs (libraryDirPath : String) :
    List Child → List Entry → Except String Unit × List Entry
  | [], acc => (Except.ok (), acc)
  | c :: rest, acc =>
    if soLibs c = [] then (Except.error (noLibsMsg libraryDirPath c), acc)
    else writeLibs libraryDirPath rest (acc ++ jniEntries c)

/-- `generate_aar` as defined in `scripts/jitpack.py`. -/
def generate_aar (libraryDirPath : String) (children : List Child)
    (group_id artifact_id : String) (min_sdk_version : Int) :
    Except String Unit × DiskState :=
  let r := writeLibs libraryDirPath children
    [manifestEntry group_id artifact_id min_sdk_version]
  (r.1, ⟨true, true, r.2⟩)

end Jitpack

theorem jitpack_writeLibs_eq (p : String) :
    ∀ (ch : List Child) (acc : List Entry),
      Jitpack.writeLibs p ch acc = writeLibs p ch acc := by
  intro ch
  induction ch with
  | nil => intro acc; rfl
  | cons c cs ih =>
    intro acc
    by_cases hc : soLibs c = []
    · simp [Jitpack.writeLibs, writeLibs, hc, Jitpack.noLibsMsg, noLibsMsg]
    · simp [Jitpack.writeLibs, writeLibs, hc, ih]

/-- C8: the `generate_aar` of `scripts/aar.py` and the `generate_aar` of
`scripts/jitpack.py` are behaviorally identical: on every input they
produce the same outcome and the same archive contents. -/
theorem claim8_generate_aar_equal (p : String) (ch : List Child)
    (g a : String) (m : Int) :
    generate_aar p ch g a m = Jitpack.generate_aar p ch g a m := by
  unfold generate_aar Jitpack.generate_aar
  rw [jitpack_writeLibs_eq]
  rfl
